import Mathlib

/-!
Shallow embedding of the PyHomeAutomate core (THaeckel/PyHomeAutomate) and
proofs about it.

* `StateDataBase` embeds `src/statedb.py` (`StateDataBase` with `getState`,
  `setState`, `registerObserver`, `notifyObservers`).  Python dicts are
  embedded as functions `String → Option _`; observer callbacks are embedded
  as abstract identifiers of type `O`, and invoking a callback is recorded as
  a `Notif` event in the list returned by `setState`.
* The `Skill.run` loop of `src/skills.py` is embedded as a function from a
  list of per-cycle inputs (outcome of the task body, stop requests) to the
  list of observable events (log lines, task invocations, interval waits).
* `checkBedTime` embeds `DaytimeSkill.checkBedTime` of `src/daytimeskill.py`,
  with `datetime` values embedded as an absolute day index plus minutes since
  midnight (lexicographic order, exactly the order Python uses on
  `datetime`/`time` values).
* `hueTask` embeds the decision logic of
  `HueDaytimeAndWeatherSkill.task` of `src/hueskill.py`.
-/

namespace PyHome

/-- Event recording that observer `obs` was invoked with `(key, value)`
(the call `observer.stateChangedCallback(key, self.states[key])` in
`StateDataBase.notifyObservers`). -/
structure Notif (V O : Type) where
  obs : O
  key : String
  value : V
deriving DecidableEq

/-- Embedding of `statedb.StateDataBase`: `states` and `observers` are the
two dicts, embedded as functions returning `none` for a missing key. -/
structure StateDataBase (V O : Type) where
  states : String → Option V
  observers : String → Option (List O)

/-- A store built with the default constructor argument
(`initialStates=dict()`): both dicts empty. -/
def StateDataBase.init {V O : Type} : StateDataBase V O :=
  ⟨fun _ => none, fun _ => none⟩

/-- Embedding of `StateDataBase.getState`: `value = None`, overwritten with
`self.states[key]` when `key in self.states`. -/
def getState {V O : Type} (db : StateDataBase V O) (key : String) : Option V :=
  db.states key

/-- The observer list currently attached to `key` (`self.observers[key]`
when present, otherwise empty — a missing entry notifies nobody, like an
empty list). -/
def observersOf {V O : Type} (db : StateDataBase V O) (key : String) : List O :=
  (db.observers key).getD []

/-- Embedding of `StateDataBase.notifyObservers`: when `key in
self.observers`, each observer in `self.observers[key]` is called in list
order with `(key, self.states[key])`.  The branch where `key` is absent from
`states` is unreachable from `setState` (Python would raise `KeyError`);
it is embedded as producing no events. -/
def notifyObservers {V O : Type} (db : StateDataBase V O) (key : String) :
    List (Notif V O) :=
  match db.observers key with
  | none => []
  | some obs =>
    match db.states key with
    | some v => obs.map (fun o => ⟨o, key, v⟩)
    | none => []

/-- Embedding of `StateDataBase.setState`: when `len(key) > 0`, write
`self.states[key] = value` and run `notifyObservers(key)` on the updated
store; otherwise do nothing.  Returns the new store and the list of observer
invocations performed. -/
def setState {V O : Type} (db : StateDataBase V O) (key : String) (value : V) :
    StateDataBase V O × List (Notif V O) :=
  if 0 < key.length then
    let db' : StateDataBase V O :=
      { db with states := fun k => if k = key then some value else db.states k }
    (db', notifyObservers db' key)
  else (db, [])

/-- Embedding of `StateDataBase.registerObserver`: only when `key in
self.states`; creates the (possibly empty) observer list for `key` and
appends `observer` unless it is already present. -/
def registerObserver {V O : Type} [DecidableEq O] (db : StateDataBase V O)
    (key : String) (observer : O) : StateDataBase V O :=
  if (db.states key).isSome then
    let cur := (db.observers key).getD []
    let cur' := if observer ∈ cur then cur else cur ++ [observer]
    { db with observers := fun k => if k = key then some cur' else db.observers k }
  else db

/-- A store operation issued by some skill: a `setState` or a
`registerObserver` call. -/
inductive Op (V O : Type) where
  | set (key : String) (value : V)
  | register (key : String) (observer : O)
deriving DecidableEq

/-- Whether this operation is `registerObserver(_, o)` for the given
observer. -/
def Op.registersObs {V O : Type} [DecidableEq O] : Op V O → O → Bool
  | .register _ o', o => o' = o
  | .set _ _, _ => false

/-- Whether this operation is `setState(k, _)` for the given key. -/
def Op.setsKey {V O : Type} : Op V O → String → Bool
  | .set k' _, k => k' = k
  | .register _ _, _ => false

/-- Apply one operation to the store, returning the new store and the
observer invocations it triggered. -/
def applyOp {V O : Type} [DecidableEq O] (db : StateDataBase V O) :
    Op V O → StateDataBase V O × List (Notif V O)
  | .set k v => setState db k v
  | .register k o => (registerObserver db k o, [])

/-- Run a sequence of operations, concatenating the observer invocations in
order. -/
def runOps {V O : Type} [DecidableEq O] (db : StateDataBase V O) :
    List (Op V O) → StateDataBase V O × List (Notif V O)
  | [] => (db, [])
  | op :: rest =>
    let r := applyOp db op
    let r' := runOps r.1 rest
    (r'.1, r.2 ++ r'.2)

/-- Register each observer of `os` in turn on `key` (repeated
`registerObserver` calls). -/
def registerAll {V O : Type} [DecidableEq O] (db : StateDataBase V O)
    (key : String) (os : List O) : StateDataBase V O :=
  os.foldl (fun d o => registerObserver d key o) db

theorem registerObserver_states {V O : Type} [DecidableEq O]
    (db : StateDataBase V O) (key : String) (o : O) :
    (registerObserver db key o).states = db.states := by
  unfold registerObserver
  split <;> rfl

theorem registerObserver_of_absent {V O : Type} [DecidableEq O]
    {db : StateDataBase V O} {key : String} (o : O)
    (h : db.states key = none) : registerObserver db key o = db := by
  unfold registerObserver
  simp [h]

theorem registerAll_states {V O : Type} [DecidableEq O]
    (db : StateDataBase V O) (key : String) (os : List O) :
    (registerAll db key os).states = db.states := by
  induction os generalizing db with
  | nil => rfl
  | cons o os ih =>
    simp only [registerAll, List.foldl_cons] at *
    rw [ih, registerObserver_states]

theorem observersOf_registerObserver_self {V O : Type} [DecidableEq O]
    {db : StateDataBase V O} {key : String} {w : V} (o : O)
    (h : db.states key = some w) :
    observersOf (registerObserver db key o) key =
      if o ∈ observersOf db key then observersOf db key
      else observersOf db key ++ [o] := by
  unfold registerObserver observersOf
  simp [h]

theorem notifyObservers_eq_map {V O : Type} {db : StateDataBase V O}
    {key : String} {v : V} (h : db.states key = some v) :
    notifyObservers db key = (observersOf db key).map (fun o => ⟨o, key, v⟩) := by
  unfold notifyObservers observersOf
  cases hobs : db.observers key with
  | none => simp
  | some l => simp [h]

theorem setState_states {V O : Type} (db : StateDataBase V O) (key : String)
    (v : V) (h : 0 < key.length) :
    (setState db key v).1.states = fun k => if k = key then some v else db.states k := by
  unfold setState
  simp [h]

theorem setState_snd {V O : Type} (db : StateDataBase V O) (key : String)
    (v : V) (h : 0 < key.length) :
    (setState db key v).2 = (observersOf db key).map (fun o => ⟨o, key, v⟩) := by
  unfold setState
  rw [if_pos h]
  refine notifyObservers_eq_map ?_
  simp

theorem observersOf_setState {V O : Type} (db : StateDataBase V O)
    (key : String) (v : V) (k : String) :
    observersOf (setState db key v).1 k = observersOf db k := by
  unfold setState observersOf
  split <;> rfl

theorem mem_notifyObservers_obs {V O : Type} {db : StateDataBase V O}
    {key : String} {e : Notif V O} (he : e ∈ notifyObservers db key) :
    e.obs ∈ observersOf db key := by
  unfold notifyObservers at he
  unfold observersOf
  cases hobs : db.observers key with
  | none => rw [hobs] at he; simp at he
  | some l =>
    rw [hobs] at he
    cases hst : db.states key with
    | none => rw [hst] at he; simp at he
    | some v =>
      rw [hst] at he
      simp only [List.mem_map] at he
      obtain ⟨a, ha, rfl⟩ := he
      simpa using ha

theorem mem_setState_snd_obs {V O : Type} {db : StateDataBase V O}
    {key : String} {v : V} {e : Notif V O}
    (he : e ∈ (setState db key v).2) : e.obs ∈ observersOf db key := by
  unfold setState at he
  split at he
  · have := mem_notifyObservers_obs he
    simpa [observersOf] using this
  · simp at he

theorem observersOf_registerObserver_other {V O : Type} [DecidableEq O]
    (db : StateDataBase V O) (key : String) (o' : O) {k : String}
    (hk : k ≠ key) :
    observersOf (registerObserver db key o') k = observersOf db k := by
  unfold registerObserver observersOf
  split
  · simp [hk]
  · rfl

theorem not_mem_observersOf_registerObserver {V O : Type} [DecidableEq O]
    {db : StateDataBase V O} {key k : String} {o o' : O}
    (h1 : o ∉ observersOf db k) (h2 : o ≠ o') :
    o ∉ observersOf (registerObserver db key o') k := by
  by_cases hk : k = key
  · subst hk
    cases hst : db.states k with
    | none =>
      rw [registerObserver_of_absent _ hst]
      exact h1
    | some w =>
      rw [observersOf_registerObserver_self o' hst]
      split
      · exact h1
      · intro hmem
        rcases List.mem_append.mp hmem with h | h
        · exact h1 h
        · rw [List.mem_singleton] at h
          exact h2 h
  · rw [observersOf_registerObserver_other db key o' hk]
    exact h1

theorem runOps_untouched_observer {V O : Type} [DecidableEq O]
    (ops : List (Op V O)) (db : StateDataBase V O) (o : O)
    (hdb : ∀ k, o ∉ observersOf db k)
    (hops : ∀ op ∈ ops, Op.registersObs op o = false) :
    (∀ k, o ∉ observersOf (runOps db ops).1 k) ∧
      ∀ e ∈ (runOps db ops).2, e.obs ≠ o := by
  induction ops generalizing db with
  | nil => exact ⟨hdb, by simp [runOps]⟩
  | cons op rest ih =>
    have hop := hops op (List.mem_cons_self _ _)
    have hrest : ∀ op' ∈ rest, Op.registersObs op' o = false :=
      fun op' h => hops op' (List.mem_cons_of_mem _ h)
    cases op with
    | set k v =>
      have hdb' : ∀ k', o ∉ observersOf (setState db k v).1 k' := by
        intro k'
        rw [observersOf_setState]
        exact hdb k'
      have ihr := ih (setState db k v).1 hdb' hrest
      refine ⟨by simpa [runOps, applyOp] using ihr.1, ?_⟩
      intro e he
      simp only [runOps, applyOp, List.mem_append] at he
      rcases he with he | he
      · have hmem := mem_setState_snd_obs he
        intro hEq
        rw [hEq] at hmem
        exact hdb k hmem
      · exact ihr.2 e he
    | register k o' =>
      have hne : o ≠ o' := by
        simp only [Op.registersObs, decide_eq_false_iff_not] at hop
        exact fun h => hop h.symm
      have hdb' : ∀ k', o ∉ observersOf (registerObserver db k o') k' :=
        fun k' => not_mem_observersOf_registerObserver (hdb k') hne
      have ihr := ih (registerObserver db k o') hdb' hrest
      refine ⟨by simpa [runOps, applyOp] using ihr.1, ?_⟩
      intro e he
      simp only [runOps, applyOp, List.nil_append] at he
      exact ihr.2 e he

theorem runOps_states_of_not_set {V O : Type} [DecidableEq O]
    (ops : List (Op V O)) (db : StateDataBase V O) (k : String)
    (hdb : db.states k = none)
    (hops : ∀ op ∈ ops, Op.setsKey op k = false) :
    (runOps db ops).1.states k = none := by
  induction ops generalizing db with
  | nil => exact hdb
  | cons op rest ih =>
    have hop := hops op (List.mem_cons_self _ _)
    have hrest : ∀ op' ∈ rest, Op.setsKey op' k = false :=
      fun op' h => hops op' (List.mem_cons_of_mem _ h)
    cases op with
    | set k' v =>
      have hne : k' ≠ k := by
        simpa [Op.setsKey] using hop
      simp only [runOps, applyOp]
      apply ih _ _ hrest
      unfold setState
      split
      · show (if k = k' then some v else db.states k) = none
        rw [if_neg (fun h : k = k' => hne h.symm)]
        exact hdb
      · exact hdb
    | register k' o =>
      simp only [runOps, applyOp]
      apply ih _ _ hrest
      rw [registerObserver_states]
      exact hdb

theorem observersOf_registerAll {V O : Type} [DecidableEq O]
    (os : List O) (db : StateDataBase V O) (k : String) (w : V)
    (hst : db.states k = some w) (hnd : os.Nodup)
    (hnew : ∀ o ∈ os, o ∉ observersOf db k) :
    observersOf (registerAll db k os) k = observersOf db k ++ os := by
  induction os generalizing db with
  | nil => simp [registerAll]
  | cons o os ih =>
    simp only [registerAll, List.foldl_cons] at *
    have h1 : observersOf (registerObserver db k o) k = observersOf db k ++ [o] := by
      rw [observersOf_registerObserver_self o hst,
        if_neg (hnew o (List.mem_cons_self _ _))]
    have hst1 : (registerObserver db k o).states k = some w := by
      rw [registerObserver_states]
      exact hst
    have hnew1 : ∀ o' ∈ os, o' ∉ observersOf (registerObserver db k o) k := by
      intro o' ho'
      rw [h1]
      simp only [List.mem_append, List.mem_singleton]
      rintro (h | h)
      · exact hnew o' (List.mem_cons_of_mem _ ho') h
      · subst h
        exact (List.nodup_cons.mp hnd).1 ho'
    rw [ih (registerObserver db k o) hst1 (List.nodup_cons.mp hnd).2 hnew1, h1]
    simp

theorem notifInj {V O : Type} (k : String) (v : V) :
    Function.Injective (fun o : O => (⟨o, k, v⟩ : Notif V O)) := by
  intro a b h
  simpa using congrArg Notif.obs h

/-- A sample store used to instantiate hypotheses at concrete inputs:
key `"a"` holds `7`, no observers registered. -/
def sampleDb : StateDataBase Nat Nat :=
  ⟨fun k => if k = "a" then some 7 else none, fun _ => none⟩

/-- C2: an observer registered on a never-written key is silently dropped:
`registerObserver` leaves the store unchanged, and the observer is never
invoked by any later sequence of operations that does not register it
again. -/
theorem registerObserver_unwritten_key_dropped {V O : Type} [DecidableEq O]
    (db : StateDataBase V O) (k : String) (o : O) (ops : List (Op V O))
    (hk : db.states k = none)
    (ho : ∀ k', o ∉ observersOf db k')
    (hops : ∀ op ∈ ops, Op.registersObs op o = false) :
    registerObserver db k o = db ∧
      ∀ e ∈ (runOps (registerObserver db k o) ops).2, e.obs ≠ o := by
  have hdrop := registerObserver_of_absent o hk
  refine ⟨hdrop, ?_⟩
  rw [hdrop]
  exact (runOps_untouched_observer ops db o ho hops).2

/-- Witness for C2: register observer `0` on the never-written key `"a"` of
the empty store, then write `"a"`; the registration was a no-op and no
notification mentions observer `0`. -/
theorem registerObserver_unwritten_key_dropped_witness :
    registerObserver (StateDataBase.init : StateDataBase Nat Nat) "a" 0 =
        StateDataBase.init ∧
      ∀ e ∈ (runOps (registerObserver
          (StateDataBase.init : StateDataBase Nat Nat) "a" 0)
          [Op.set "a" 1]).2, e.obs ≠ 0 :=
  registerObserver_unwritten_key_dropped StateDataBase.init "a" 0
    [Op.set "a" 1] rfl
    (fun k' => by simp [observersOf, StateDataBase.init])
    (by decide)

/-- C3 counterexample: the claim quantifies over every key, but `setState`
is a no-op on the empty key (`len(key) > 0` guard), so after
`set("", 1); set("", 2)` the read `get("")` returns `none`, not `2`. -/
theorem set_set_get_empty_key_cex :
    ¬ getState
        (setState (setState (StateDataBase.init : StateDataBase Nat Nat)
          "" 1).1 "" 2).1 "" = some 2 := by
  decide

/-- C3 (amended to non-empty keys): for every non-empty key `k`, after
`set(k, v1)` then `set(k, v2)`, `get(k)` returns `v2` — last write wins. -/
theorem set_set_get_lastWriteWins {V O : Type} (db : StateDataBase V O)
    (k : String) (v1 v2 : V) (hk : 0 < k.length) :
    getState (setState (setState db k v1).1 k v2).1 k = some v2 := by
  unfold getState
  rw [setState_states _ _ _ hk]
  simp

/-- Witness for C3 (amended): two writes to key `"a"` of the empty store,
then a read, observing the second value. -/
theorem set_set_get_lastWriteWins_witness :
    getState (setState (setState (StateDataBase.init : StateDataBase Nat Nat)
      "a" 1).1 "a" 2).1 "a" = some 2 :=
  set_set_get_lastWriteWins StateDataBase.init "a" 1 2 (by decide)

/-- C4: with observers `os` registered in order on a key that already has a
value (and no observer registered before), a single `setState` invokes
exactly the registered observers, in registration order, each with the key
and the new value, and each exactly once. -/
theorem setState_notifies_in_registration_order {V O : Type} [DecidableEq O]
    [DecidableEq V] (db : StateDataBase V O) (k : String) (w v : V)
    (os : List O) (hk : 0 < k.length) (hst : db.states k = some w)
    (hobs : db.observers k = none) (hnd : os.Nodup) :
    (setState (registerAll db k os) k v).2 = os.map (fun o => ⟨o, k, v⟩) ∧
      ∀ o ∈ os,
        ((setState (registerAll db k os) k v).2).count ⟨o, k, v⟩ = 1 := by
  have hobs0 : observersOf db k = [] := by simp [observersOf, hobs]
  have hnew : ∀ o ∈ os, o ∉ observersOf db k := by simp [hobs0]
  have hmap : (setState (registerAll db k os) k v).2 =
      os.map (fun o => ⟨o, k, v⟩) := by
    have hst' : (registerAll db k os).states k = some w := by
      rw [registerAll_states]
      exact hst
    rw [setState_snd _ _ _ hk,
      observersOf_registerAll os db k w hst hnd hnew, hobs0, List.nil_append]
  refine ⟨hmap, ?_⟩
  intro o ho
  rw [hmap, List.count_map_of_injective _ _ (notifInj k v)]
  exact List.count_eq_one_of_mem hnd ho

/-- Witness for C4: observers `1` and `2` registered in order on key `"a"`
of `sampleDb`; one write produces their two notifications in order. -/
theorem setState_notifies_in_registration_order_witness :
    (setState (registerAll sampleDb "a" [1, 2]) "a" 5).2 =
        ([1, 2].map (fun o => ⟨o, "a", 5⟩)) ∧
      ∀ o ∈ [1, 2],
        ((setState (registerAll sampleDb "a" [1, 2]) "a" 5).2).count
          ⟨o, "a", 5⟩ = 1 :=
  setState_notifies_in_registration_order sampleDb "a" 7 5 [1, 2]
    (by decide) (by decide) rfl (by decide)

/-- C5: registering the same observer twice on a key that has a value does
not duplicate notifications: a single `setState` afterwards invokes it
exactly once. -/
theorem registerObserver_idempotent_single_notification {V O : Type}
    [DecidableEq O] [DecidableEq V] (db : StateDataBase V O) (k : String)
    (w v : V) (o : O) (hk : 0 < k.length) (hst : db.states k = some w)
    (ho : o ∉ observersOf db k) :
    ((setState (registerObserver (registerObserver db k o) k o) k v).2).count
      ⟨o, k, v⟩ = 1 := by
  have h1 : observersOf (registerObserver db k o) k =
      observersOf db k ++ [o] := by
    rw [observersOf_registerObserver_self o hst, if_neg ho]
  have hst1 : (registerObserver db k o).states k = some w := by
    rw [registerObserver_states]
    exact hst
  have h2 : observersOf (registerObserver (registerObserver db k o) k o) k =
      observersOf db k ++ [o] := by
    rw [observersOf_registerObserver_self o hst1, h1, if_pos (by simp)]
  rw [setState_snd _ _ _ hk, h2,
    List.count_map_of_injective _ _ (notifInj k v)]
  simp [List.count_append, List.count_eq_zero.mpr ho]

/-- Witness for C5: observer `3` registered twice on key `"a"` of
`sampleDb`; one write notifies it exactly once. -/
theorem registerObserver_idempotent_single_notification_witness :
    ((setState (registerObserver (registerObserver sampleDb "a" 3) "a" 3)
      "a" 9).2).count ⟨3, "a", 9⟩ = 1 :=
  registerObserver_idempotent_single_notification sampleDb "a" 7 9 3
    (by decide) (by decide) (by decide)

/-- C6: a key never written — starting from the empty store, after any
sequence of operations none of which sets `k` — reads as `none`, the absent
indicator; the read has no other non-value outcome. -/
theorem getState_never_written_none {V O : Type} [DecidableEq O]
    (ops : List (Op V O)) (k : String)
    (hops : ∀ op ∈ ops, Op.setsKey op k = false) :
    getState (runOps (StateDataBase.init : StateDataBase V O) ops).1 k =
      none := by
  unfold getState
  exact runOps_states_of_not_set ops StateDataBase.init k rfl hops

/-- Witness for C6: after registering on and writing key `"b"`, the
never-written key `"a"` still reads as `none`. -/
theorem getState_never_written_none_witness :
    getState (runOps (StateDataBase.init : StateDataBase Nat Nat)
      [Op.register "b" 0, Op.set "b" 5]).1 "a" = none :=
  getState_never_written_none [Op.register "b" 0, Op.set "b" 5] "a"
    (by decide)

/-- Construction-time configuration of a `Skill` (from `Skill.__init__`)
relevant to the run loop: name, interval, and the two silencing flags. -/
structure SkillCfg where
  name : String
  interval : Nat
  errorSilent : Bool
  logSilent : Bool
deriving DecidableEq

/-- Outcome of one invocation of the task body: normal return, or one of
the two exception classes distinguished by the handlers in `Skill.run`. -/
inductive TaskResult where
  | ok
  | keyboardInterrupt
  | exn
deriving DecidableEq

/-- Observable event of the run loop: a log line
`<time> (<level>) Skill <name>: <text>`, an invocation of the task body, or
the interval wait `stopEvent.wait(interval)`. -/
inductive SkillEv where
  | log (level : String) (name : String) (text : String)
  | taskInvoked
  | intervalWait (seconds : Nat)
deriving DecidableEq

/-- Embedding of `Skill.printLog`: emits one log line when the text is
non-empty. -/
def printLog (cfg : SkillCfg) (level text : String) : List SkillEv :=
  if 0 < text.length then [.log level cfg.name text] else []

/-- Embedding of `Skill.log`: an INFO line unless `logSilent`. -/
def logInfo (cfg : SkillCfg) (text : String) : List SkillEv :=
  if cfg.logSilent then [] else printLog cfg "INFO" text

/-- The string `str(traceback.format_exc)` appended by `Skill.error`: the
source is missing the call parentheses, so this is the repr of the function
object (a non-empty string; the memory address is elided here). -/
def tracebackFormatExcRepr : String := "<function format_exc>"

/-- Embedding of `Skill.error`: an ERROR line with
`text + str(traceback.format_exc)` unless `errorSilent`. -/
def logError (cfg : SkillCfg) (text : String) : List SkillEv :=
  if cfg.errorSilent then []
  else printLog cfg "ERROR" (text ++ tracebackFormatExcRepr)

/-- Environment input to one iteration of the while loop: the outcome of
the task body, and whether `stopEvent.set()` happens at some point during
the iteration (observed at the next top-of-loop check). -/
structure CycleInput where
  taskResult : TaskResult
  stopRequested : Bool
deriving DecidableEq

/-- Events of one iteration of the while body of `Skill.run`: the task is
invoked; on normal return the interval wait follows; a `KeyboardInterrupt`
leads to `continue`; any other exception is logged via `self.error` — in
both exception cases the `stopEvent.wait(self.interval)` statement inside
the `try` block is skipped. -/
def cycleEvents (cfg : SkillCfg) : TaskResult → List SkillEv
  | .ok => [.taskInvoked, .intervalWait cfg.interval]
  | .keyboardInterrupt => [.taskInvoked]
  | .exn => .taskInvoked :: logError cfg "task failed "

/-- Whether the while loop has exited (`Stopped`) or would keep running
after the supplied cycle inputs are exhausted. -/
inductive LoopStatus where
  | stillRunning
  | terminated
deriving DecidableEq

/-- Embedding of the while loop of `Skill.run`: `stop` is the value of
`stopEvent.is_set()` at the top of the loop; each iteration consumes one
`CycleInput`. -/
def runLoop (cfg : SkillCfg) (stop : Bool) :
    List CycleInput → List SkillEv × LoopStatus
  | [] => if stop then ([], .terminated) else ([], .stillRunning)
  | c :: rest =>
    if stop then ([], .terminated)
    else
      let r := runLoop cfg c.stopRequested rest
      (cycleEvents cfg c.taskResult ++ r.1, r.2)

/-- Embedding of `Skill.run`: the launch log, the while loop, and the
termination log (reached only when the loop exits). -/
def skillRun (cfg : SkillCfg) (stop : Bool) (inputs : List CycleInput) :
    List SkillEv × LoopStatus :=
  let r := runLoop cfg stop inputs
  (logInfo cfg "skill launched " ++ r.1 ++
    (match r.2 with
     | .terminated => logInfo cfg "skill terminated "
     | .stillRunning => []), r.2)

/-- Setting the cancellation signal (`stopEvent.set()`, as done by
`homeautomate.py` on shutdown and by the default `Skill.task`). -/
def requestStop (stopEvent : Bool) : Bool :=
  true

/-- The stop event as created by `Skill.__init__` (`Event()`, unset). -/
def initStopEvent : Bool :=
  false

theorem runLoop_cons_not_stopped (cfg : SkillCfg) (c : CycleInput)
    (rest : List CycleInput) :
    runLoop cfg false (c :: rest) =
      (cycleEvents cfg c.taskResult ++ (runLoop cfg c.stopRequested rest).1,
        (runLoop cfg c.stopRequested rest).2) := by
  simp [runLoop]

theorem runLoop_stopped (cfg : SkillCfg) (inputs : List CycleInput) :
    runLoop cfg true inputs = ([], LoopStatus.terminated) := by
  cases inputs <;> simp [runLoop]

theorem taskInvoked_not_mem_logInfo (cfg : SkillCfg) (t : String) :
    SkillEv.taskInvoked ∉ logInfo cfg t := by
  unfold logInfo printLog
  split
  · simp
  · split <;> simp

/-- C1 counterexample: a skill named `"S"` with interval `5` whose task
fails twice keeps looping (two ERROR lines, still running), but the events
contain no interval wait at all — contradicting the claim that a failing
cycle continues to the next cycle after the normal interval wait.  The wait
statement sits inside the `try` block, so a raising task skips it. -/
theorem skill_failing_cycle_waits_cex :
    (skillRun ⟨"S", 5, false, false⟩ initStopEvent
        [⟨.exn, false⟩, ⟨.exn, false⟩]).2 = LoopStatus.stillRunning ∧
      (skillRun ⟨"S", 5, false, false⟩ initStopEvent
          [⟨.exn, false⟩, ⟨.exn, false⟩]).1.count
        (SkillEv.log "ERROR" "S" ("task failed " ++ tracebackFormatExcRepr))
        = 2 ∧
      SkillEv.intervalWait 5 ∉
        (skillRun ⟨"S", 5, false, false⟩ initStopEvent
          [⟨.exn, false⟩, ⟨.exn, false⟩]).1 := by
  decide

/-- C1 (amended): for every skill whose errors are not silenced, a run of
`n` cycles in which the task body always raises produces exactly one
ERROR-level log tagged with the skill name per cycle, invokes the task once
per cycle, never performs the interval wait (the exception skips the
`stopEvent.wait` inside the `try` block, so the loop continues immediately),
and never terminates the loop. -/
theorem skill_failing_task_loops (cfg : SkillCfg) (n : Nat)
    (hE : cfg.errorSilent = false) :
    (runLoop cfg false (List.replicate n ⟨.exn, false⟩)).2 =
        LoopStatus.stillRunning ∧
      (runLoop cfg false (List.replicate n ⟨.exn, false⟩)).1.count
          (SkillEv.log "ERROR" cfg.name
            ("task failed " ++ tracebackFormatExcRepr)) = n ∧
      (runLoop cfg false (List.replicate n ⟨.exn, false⟩)).1.count
          SkillEv.taskInvoked = n ∧
      ∀ s, SkillEv.intervalWait s ∉
        (runLoop cfg false (List.replicate n ⟨.exn, false⟩)).1 := by
  have htext : 0 < ("task failed " ++ tracebackFormatExcRepr).length := by
    decide
  have hcyc : cycleEvents cfg TaskResult.exn =
      [SkillEv.taskInvoked, SkillEv.log "ERROR" cfg.name
        ("task failed " ++ tracebackFormatExcRepr)] := by
    simp only [cycleEvents, logError, hE, Bool.false_eq_true, if_false,
      printLog, if_pos htext]
  induction n with
  | zero =>
    refine ⟨rfl, rfl, rfl, ?_⟩
    intro s
    simp [runLoop]
  | succ n ih =>
    obtain ⟨ih1, ih2, ih3, ih4⟩ := ih
    rw [List.replicate_succ, runLoop_cons_not_stopped]
    refine ⟨ih1, ?_, ?_, ?_⟩
    · simp only [List.count_append, hcyc]
      rw [ih2]
      simp [List.count_cons]
      omega
    · simp only [List.count_append, hcyc]
      rw [ih3]
      simp [List.count_cons]
      omega
    · intro s
      simp only [List.mem_append, hcyc, List.mem_cons]
      rintro ((h | h | h) | h)
      · exact SkillEv.noConfusion h
      · exact SkillEv.noConfusion h
      · simp at h
      · exact ih4 s h

/-- Witness for C1 (amended): skill `"S"`, interval `5`, errors not
silenced, three failing cycles. -/
theorem skill_failing_task_loops_witness :
    (runLoop ⟨"S", 5, false, false⟩ false
        (List.replicate 3 ⟨.exn, false⟩)).2 = LoopStatus.stillRunning ∧
      (runLoop ⟨"S", 5, false, false⟩ false
          (List.replicate 3 ⟨.exn, false⟩)).1.count
          (SkillEv.log "ERROR" "S"
            ("task failed " ++ tracebackFormatExcRepr)) = 3 ∧
      (runLoop ⟨"S", 5, false, false⟩ false
          (List.replicate 3 ⟨.exn, false⟩)).1.count
          SkillEv.taskInvoked = 3 ∧
      ∀ s, SkillEv.intervalWait s ∉
        (runLoop ⟨"S", 5, false, false⟩ false
          (List.replicate 3 ⟨.exn, false⟩)).1 :=
  skill_failing_task_loops ⟨"S", 5, false, false⟩ 3 rfl

/-- C7: setting the cancellation signal is idempotent; if it is set before
the loop begins, the loop exits at the first cycle check, the task body is
never invoked, and the skill reaches the terminal state; and once the
signal is requested during a cycle, the loop terminates at the next
top-of-cycle check with no further task invocation. -/
theorem stop_before_start_exits_immediately (cfg : SkillCfg)
    (inputs : List CycleInput) :
    (skillRun cfg (requestStop initStopEvent) inputs).2 =
        LoopStatus.terminated ∧
      SkillEv.taskInvoked ∉ (skillRun cfg (requestStop initStopEvent) inputs).1 ∧
      (∀ b : Bool, requestStop (requestStop b) = requestStop b) ∧
      ∀ c : CycleInput, c.stopRequested = true →
        ∀ rest, runLoop cfg false (c :: rest) =
          (cycleEvents cfg c.taskResult, LoopStatus.terminated) := by
  have hloop := runLoop_stopped cfg inputs
  refine ⟨?_, ?_, fun _ => rfl, ?_⟩
  · simp [skillRun, requestStop, hloop]
  · simp only [skillRun, requestStop, hloop, List.append_nil, List.nil_append,
      List.mem_append]
    rintro (h | h) <;> exact taskInvoked_not_mem_logInfo cfg _ h
  · intro c hc rest
    rw [runLoop_cons_not_stopped, hc, runLoop_stopped]
    simp

/-- Witness for C7: a stop requested during the first cycle of a skill
named `"S"` terminates the loop right after that cycle. -/
theorem stop_before_start_exits_immediately_witness :
    runLoop ⟨"S", 5, false, false⟩ false [⟨.ok, true⟩, ⟨.ok, false⟩] =
      (cycleEvents ⟨"S", 5, false, false⟩ TaskResult.ok,
        LoopStatus.terminated) :=
  (stop_before_start_exits_immediately ⟨"S", 5, false, false⟩ []).2.2.2
    ⟨.ok, true⟩ rfl [⟨.ok, false⟩]

/-- Splitting of a character list at every occurrence of `sep`, keeping
empty pieces — the semantics of Python `str.split(sep)` for a one-character
separator. -/
def splitOnChar (sep : Char) : List Char → List (List Char)
  | [] => [[]]
  | x :: xs =>
    match splitOnChar sep xs with
    | [] => [[]]
    | r :: rs => if x = sep then [] :: r :: rs else (x :: r) :: rs

/-- Embedding of Python `s.split(sep)` for a one-character separator. -/
def pySplit (s : String) (sep : Char) : List String :=
  (splitOnChar sep s.data).map (fun l => ⟨l⟩)

/-- Decimal value of a digit list (`int()` on a digit string). -/
def digitsToNat (l : List Char) : Nat :=
  l.foldl (fun acc c => acc * 10 + (c.toNat - 48)) 0

/-- Embedding of Python `int(s)` on a decimal-digit string. -/
def pyInt (s : String) : Nat :=
  digitsToNat s.data

/-- Embedding of a Python `datetime.datetime`: an absolute day index (the
date part) and minutes since midnight (the time part).  Python compares
datetimes lexicographically by (date, time) and `time` values by
(hour, minute, second); the minute count preserves both orders for the
whole-minute values used here. -/
structure PyDateTime where
  day : Int
  minute : Nat
deriving DecidableEq

/-- Python datetime strict comparison `a < b`. -/
def dtLt (a b : PyDateTime) : Bool :=
  a.day < b.day || (a.day = b.day && a.minute < b.minute)

/-- Python datetime comparison `a >= b`. -/
def dtGe (a b : PyDateTime) : Bool :=
  !(dtLt a b)

/-- Embedding of `date.strftime("%A").lower()`: the weekday name of a day
index, with day `0` mapped to `"monday"` (the choice of origin is a
convention; only consistency between consecutive days matters). -/
def weekdayName (day : Int) : String :=
  match (day.emod 7).toNat with
  | 0 => "monday"
  | 1 => "tuesday"
  | 2 => "wednesday"
  | 3 => "thursday"
  | 4 => "friday"
  | 5 => "saturday"
  | _ => "sunday"

/-- Parse one side of a bed-time entry, `"HH:MM"`, into minutes since
midnight: `split(':')` then `datetime.time(int(h), int(m))`. -/
def parseClockMinutes (s : String) : Nat :=
  let parts := pySplit s ':'
  pyInt (parts.getD 0 "") * 60 + pyInt (parts.getD 1 "")

/-- The `lookupday` computed at the top of `DaytimeSkill.checkBedTime`:
today's weekday name, rolled back to yesterday's when the current time is
before midday (`datetime.combine(today, time(12, 0, 0))`). -/
def bedTimeLookupDay (now : PyDateTime) : String :=
  if dtLt now ⟨now.day, 720⟩ then weekdayName (now.day - 1)
  else weekdayName now.day

/-- Embedding of `DaytimeSkill.checkBedTime`.  `bedTime` is the skill's
bed-time dict (weekday name → `"HH:MM-HH:MM"`); `now` is
`datetime.datetime.now()`.  The guard `len(self.bedTime) > 0 and lookupday
in self.bedTime` is embedded as the lookup returning a value. -/
def checkBedTime (bedTime : String → Option String) (now : PyDateTime) :
    Bool :=
  let today := now.day
  let yesterday := today - 1
  let tomorrow := today + 1
  let beforeMidday := dtLt now ⟨today, 720⟩
  match bedTime (bedTimeLookupDay now) with
  | none => false
  | some entry =>
    let interval := pySplit entry '-'
    let startMin := parseClockMinutes (interval.getD 0 "")
    let endMin := parseClockMinutes (interval.getD 1 "")
    let startDT : PyDateTime :=
      if beforeMidday then
        if 720 < startMin then ⟨yesterday, startMin⟩ else ⟨today, startMin⟩
      else
        if 720 < startMin then ⟨today, startMin⟩ else ⟨tomorrow, startMin⟩
    let endDT : PyDateTime :=
      if beforeMidday then ⟨today, endMin⟩ else ⟨tomorrow, endMin⟩
    dtGe now startDT && dtLt now endDT

/-- The bed-time dict of the C8 scenario: `"23:00-07:00"` on `"monday"`
only. -/
def mondayBedCfg : String → Option String :=
  fun d => if d = "monday" then some "23:00-07:00" else none

/-- C8: with `"23:00-07:00"` configured for `"monday"`, the check reports
bedtime at 23:30 Monday (day 7) and still at 06:30 Tuesday (day 8, before
midday, so the lookup rolls back to Monday), but not at 08:00 Tuesday; and
in general, whenever the current time is before midday the lookup day is
the previous day's weekday name. -/
theorem checkBedTime_midday_rollback :
    checkBedTime mondayBedCfg ⟨7, 23 * 60 + 30⟩ = true ∧
      checkBedTime mondayBedCfg ⟨8, 6 * 60 + 30⟩ = true ∧
      checkBedTime mondayBedCfg ⟨8, 8 * 60⟩ = false ∧
      ∀ now : PyDateTime, dtLt now ⟨now.day, 720⟩ = true →
        bedTimeLookupDay now = weekdayName (now.day - 1) := by
  refine ⟨by decide, by decide, by decide, ?_⟩
  intro now h
  simp [bedTimeLookupDay, h]

/-- Witness for C8: at 06:30 Tuesday (day 8) the lookup day is computed
from the previous day, Monday (day 7). -/
theorem checkBedTime_midday_rollback_witness :
    bedTimeLookupDay ⟨8, 6 * 60 + 30⟩ = weekdayName ((8 : Int) - 1) :=
  checkBedTime_midday_rollback.2.2.2 ⟨8, 6 * 60 + 30⟩ (by decide)

/-- Daytime state object of `daytimeskill.py` (`DaytimeState`). -/
structure DaytimeState where
  daytime : String
  bedTime : Bool
deriving DecidableEq

def DaytimeState.DAY_STR : String := "Day"

def DaytimeState.SUNRISE_STR : String := "Sunrise"

def DaytimeState.SUNSET_STR : String := "Sunset"

def DaytimeState.NIGHT_STR : String := "Night"

def DaytimeState.isBedTime (s : DaytimeState) : Bool :=
  s.bedTime

def DaytimeState.isDayTime (s : DaytimeState) : Bool :=
  s.daytime == DaytimeState.DAY_STR

def DaytimeState.isSunriseTime (s : DaytimeState) : Bool :=
  s.daytime == DaytimeState.SUNRISE_STR

def DaytimeState.isSunsetTime (s : DaytimeState) : Bool :=
  s.daytime == DaytimeState.SUNSET_STR

def DaytimeState.isNightTime (s : DaytimeState) : Bool :=
  s.daytime == DaytimeState.NIGHT_STR

/-- Weather value as consumed by `HueDaytimeAndWeatherSkill.task` through
the accessors `getClouds()` and `isRaining()` (only this interface of the
weather state reaches the decision logic). -/
structure WeatherState where
  clouds : Int
  raining : Bool
deriving DecidableEq

def WeatherState.getClouds (w : WeatherState) : Int :=
  w.clouds

def WeatherState.isRaining (w : WeatherState) : Bool :=
  w.raining

def MODE_SLEEP : String := "SLEEP"

def MODE_DAY_CLEAR : String := "DAY_CLEAR"

def MODE_DAY_DARK : String := "DAY_DARK"

def MODE_DAY_MODERATE : String := "DAY_MODERATE"

def MODE_SUNRISE : String := "SUNRISE"

def MODE_SUNSET : String := "SUNSET"

def MODE_NIGHT : String := "NIGHT"

/-- Settings of `HueDaytimeAndWeatherSkill` used by its task. -/
structure HueCfg where
  maxCloudsClear : Int
  minCloudsCloudy : Int
  sceneNightMode : String
  sceneDayModeLight : String
  sceneDayModeDark : String
deriving DecidableEq

/-- The defaults from `HueDaytimeAndWeatherSkill.__init__`. -/
def hueDefaults : HueCfg :=
  ⟨80, 90, "Gedimmt", "Energie tanken", "Hell"⟩

/-- Side effect performed by one run of the hue task. -/
inductive HueAction where
  | activateSleepMode
  | turnLightsOff
  | setScene (scene : String)
  | activateSunriseMode
  | activateSunsetMode
deriving DecidableEq

/-- Embedding of the decision logic of `HueDaytimeAndWeatherSkill.task`:
given the two states read from the store and the current `lastModeSet`,
returns the new `lastModeSet` and the actions performed.  Mirrors the early
returns on missing states and every branch of the if/elif cascade,
including the `lastModeSet` change guards. -/
def hueTask (cfg : HueCfg) (weather : Option WeatherState)
    (daytime : Option DaytimeState) (lastModeSet : String) :
    String × List HueAction :=
  match daytime, weather with
  | none, _ => (lastModeSet, [])
  | some _, none => (lastModeSet, [])
  | some dt, some w =>
    if dt.isBedTime then
      if lastModeSet ≠ MODE_SLEEP then (MODE_SLEEP, [.activateSleepMode])
      else (lastModeSet, [])
    else if dt.isDayTime then
      if w.getClouds < cfg.maxCloudsClear then
        if lastModeSet ≠ MODE_DAY_CLEAR then (MODE_DAY_CLEAR, [.turnLightsOff])
        else (lastModeSet, [])
      else if w.getClouds > cfg.minCloudsCloudy || w.isRaining then
        if lastModeSet ≠ MODE_DAY_DARK then
          (MODE_DAY_DARK, [.setScene cfg.sceneDayModeDark])
        else (lastModeSet, [])
      else
        if lastModeSet ≠ MODE_DAY_MODERATE then
          (MODE_DAY_MODERATE, [.setScene cfg.sceneDayModeLight])
        else (lastModeSet, [])
    else if dt.isSunriseTime then
      if lastModeSet ≠ MODE_SUNRISE then (MODE_SUNRISE, [.activateSunriseMode])
      else (lastModeSet, [])
    else if dt.isSunsetTime then
      if lastModeSet ≠ MODE_SUNSET then (MODE_SUNSET, [.activateSunsetMode])
      else (lastModeSet, [])
    else if dt.isNightTime then
      if lastModeSet ≠ MODE_NIGHT then
        (MODE_NIGHT, [.setScene cfg.sceneNightMode])
      else (lastModeSet, [])
    else (lastModeSet, [])

/-- C9: with the default thresholds (`maxCloudsClear = 80`,
`minCloudsCloudy = 90`), daytime and no bedtime, clouds `95` and no rain
select the dark-day (cloudy) scene since `95 > 90`; clouds exactly `90`
select the moderate scene instead; and in general a cloud value equal to
`minCloudsCloudy` with no rain fails the cloudy condition, which is a
strict greater-than. -/
theorem hueTask_cloudy_threshold_strict :
    (hueTask hueDefaults (some ⟨95, false⟩)
        (some ⟨DaytimeState.DAY_STR, false⟩) "").1 = MODE_DAY_DARK ∧
      (hueTask hueDefaults (some ⟨95, false⟩)
        (some ⟨DaytimeState.DAY_STR, false⟩) "").2 =
        [HueAction.setScene "Hell"] ∧
      (hueTask hueDefaults (some ⟨90, false⟩)
        (some ⟨DaytimeState.DAY_STR, false⟩) "").1 = MODE_DAY_MODERATE ∧
      ∀ (cfg : HueCfg) (w : WeatherState),
        w.clouds = cfg.minCloudsCloudy → w.raining = false →
          (w.getClouds > cfg.minCloudsCloudy || w.isRaining) = false := by
  refine ⟨by decide, by decide, by decide, ?_⟩
  intro cfg w h1 h2
  simp [WeatherState.getClouds, WeatherState.isRaining, h1, h2]

/-- Witness for C9: a weather state with clouds exactly at the default
cloudy threshold and no rain fails the cloudy condition. -/
theorem hueTask_cloudy_threshold_strict_witness :
    ((WeatherState.mk 90 false).getClouds > hueDefaults.minCloudsCloudy ||
      (WeatherState.mk 90 false).isRaining) = false :=
  hueTask_cloudy_threshold_strict.2.2.2 hueDefaults ⟨90, false⟩ rfl rfl

/-- Names of the methods the class `StateDataBase` in `statedb.py` defines
(besides `__init__`): its registration method is `registerObserver`. -/
def stateDataBaseMethods : List String :=
  ["getState", "setState", "registerObserver", "notifyObservers"]

/-- Embedding of `SkillWithState.observeState`: for a non-empty state name
it calls `self.statedb.registerCallback(...)`; the attribute lookup is
embedded against the method list of `StateDataBase`, and a missing
attribute raises `AttributeError`.  For an empty name nothing happens. -/
def observeState (stateName : String) : Except String Unit :=
  if 0 < stateName.length then
    if "registerCallback" ∈ stateDataBaseMethods then Except.ok ()
    else Except.error "AttributeError"
  else Except.ok ()

/-- C10: `StateDataBase` has no `registerCallback` method (its registration
method is `registerObserver`), so `observeState` raises `AttributeError`
for every non-empty state name and never registers an observer, while an
empty state name is a silent no-op. -/
theorem observeState_always_raises :
    "registerCallback" ∉ stateDataBaseMethods ∧
      "registerObserver" ∈ stateDataBaseMethods ∧
      (∀ s : String, 0 < s.length →
        observeState s = Except.error "AttributeError") ∧
      observeState "" = Except.ok () := by
  refine ⟨by decide, by decide, ?_, rfl⟩
  intro s hs
  unfold observeState
  rw [if_pos hs, if_neg (by decide)]

/-- Witness for C10: observing the state `"Weather"` raises
`AttributeError`. -/
theorem observeState_always_raises_witness :
    observeState "Weather" = Except.error "AttributeError" :=
  observeState_always_raises.2.2.1 "Weather" (by decide)

end PyHome
